import Mathlib

/-!
Shallow embedding of the libgcrypt MAC dispatcher (`cipher/mac.c`).

The dispatcher is modelled faithfully, line for line: a registry of
algorithm descriptors (`mac_list`, here a parameter `macList` since the
descriptor structs themselves live in `hmac.c`, outside this dispatcher),
opaque handles binding a descriptor to per-instance state, and the public
operation surface.

Modelling conventions:
* A C pointer-plus-length pair `(const void *p, size_t n)` becomes
  `(p : Option (List Nat)) (n : Nat)`; `none` is the NULL pointer.
* `gpg_err_code_t` becomes the inductive `ErrCode`; `gpg_error`/`gcry_error`
  wrapping is the identity on the code, as in the C build without error
  sources.
* Algorithm callbacks (the capability table) are opaque functions over an
  abstract context type `κ`; the dispatcher never inspects them, exactly as
  in the C.
* Dereferencing a NULL `ops` table (undefined behaviour in C) is modelled by
  returning `none` from the dispatcher: `some r` means the C call completes
  and returns `r`.
* Allocation and teardown effects that the claims mention (which pool an
  allocation came from, wipe-before-free ordering) are recorded as explicit
  traces (`OpenResult.allocs`, `CloseEvent` lists).
-/

/-- `gpg_err_code_t` values used by `mac.c`.  `noError` is `GPG_ERR_NO_ERROR`
(0), `invArg` is `GPG_ERR_INV_ARG`, `invOp` is `GPG_ERR_INV_OP`, `macAlgo` is
`GPG_ERR_MAC_ALGO`, `sysError` stands for the code produced by
`gpg_err_code_from_syserror ()` on allocation failure, and `other n` covers
algorithm-specific codes passed through opaquely. -/
inductive ErrCode where
  | noError
  | invArg
  | invOp
  | macAlgo
  | sysError
  | other (n : Nat)
deriving DecidableEq, Repr

/-- The capability table of one MAC algorithm (`gcry_mac_spec_ops_t`).
Every entry point is an optional (possibly NULL) function pointer acting on
the opaque per-handle context `κ`.  `op_open` is the `open` member (renamed:
`open` is a Lean keyword). -/
structure MacOps (κ : Type) where
  op_open : Option (κ → ErrCode × κ)
  close : Option (κ → κ)
  setkey : Option (κ → Option (List Nat) → Nat → ErrCode × κ)
  setiv : Option (κ → Option (List Nat) → Nat → ErrCode × κ)
  write : Option (κ → Option (List Nat) → Nat → ErrCode × κ)
  read : Option (κ → Nat → ErrCode × κ × Nat)
  verify : Option (κ → Option (List Nat) → Nat → ErrCode × κ)
  reset : Option (κ → ErrCode × κ)
  get_maclen : Option (Int → Nat)
  get_keylen : Option (Int → Nat)

/-- One algorithm descriptor (`gcry_mac_spec_t`): numeric id, name, the
`flags.disabled` bit and the (possibly NULL) capability table. -/
structure MacSpec (κ : Type) where
  algo : Int
  name : String
  disabled : Bool
  ops : Option (MacOps κ)

/-- A MAC handle (`struct gcry_mac_handle`): magic tag, bound descriptor,
copied algorithm id, the borrowed external context reference, and the opaque
algorithm-specific state `ctx` (the `u` union). -/
structure MacHd (κ : Type) where
  magic : Nat
  spec : MacSpec κ
  algo : Int
  gcry_ctx : Option Nat
  ctx : κ

/-- Modelled from the spec: the sentinel tag stamped on handles allocated
from the normal pool.  The concrete value lives in `mac-internal.h`, outside
this dispatcher; the spec only requires a distinct sentinel per pool. -/
def CTX_MAGIC_NORMAL : Nat := 1

/-- Modelled from the spec: the sentinel tag stamped on handles allocated
from the secure pool; distinct from `CTX_MAGIC_NORMAL`. -/
def CTX_MAGIC_SECURE : Nat := 2

/-- `GCRY_MAC_FLAG_SECURE` (bit 0), the only flag `gcry_mac_open`
recognizes. -/
def GCRY_MAC_FLAG_SECURE : Nat := 1

/-- Mask of an `unsigned int` (32 bits), for the `~GCRY_MAC_FLAG_SECURE`
complement in `gcry_mac_open`. -/
def UINT32_MASK : Nat := 4294967295

/-- ASCII `tolower`, as used by `stricmp`. -/
def tolower (c : Char) : Char :=
  if 'A' ≤ c ∧ c ≤ 'Z' then Char.ofNat (c.toNat + 32) else c

/-- `!stricmp (a, b)`: case-insensitive string equality. -/
def stricmp_eq (a b : String) : Bool :=
  decide (a.data.map tolower = b.data.map tolower)

/-- Modelled from the spec: the commands/queries of interest to `mac.c`
(`GCRYCTL_RESET`, `GCRYCTL_GET_KEYLEN`, `GCRYCTL_TEST_ALGO`); the numeric
enum values live in `gcrypt.h`, outside this dispatcher.  `other n` covers
every remaining command. -/
inductive GcryCtl where
  | GCRYCTL_RESET
  | GCRYCTL_GET_KEYLEN
  | GCRYCTL_TEST_ALGO
  | other (n : Nat)
deriving DecidableEq, Repr

/-- `spec_from_algo`: linear scan of the registry for the first descriptor
whose `algo` field equals `algo`; NULL (`none`) for an unknown id. -/
def spec_from_algo {κ : Type} (macList : List (MacSpec κ)) (algo : Int) :
    Option (MacSpec κ) :=
  macList.find? (fun spec => algo == spec.algo)

/-- `spec_from_name`: linear scan with case-insensitive name comparison. -/
def spec_from_name {κ : Type} (macList : List (MacSpec κ)) (name : String) :
    Option (MacSpec κ) :=
  macList.find? (fun spec => stricmp_eq name spec.name)

/-- `gcry_mac_map_name`: 0 for a NULL string or an unknown name, else the
resolved algorithm id. -/
def gcry_mac_map_name {κ : Type} (macList : List (MacSpec κ))
    (string : Option String) : Int :=
  match string with
  | none => 0
  | some s =>
    match spec_from_name macList s with
    | some spec => spec.algo
    | none => 0

/-- `gcry_mac_algo_name`: the descriptor's name, or the constant `"?"` when
there is no such algorithm.  Never NULL. -/
def gcry_mac_algo_name {κ : Type} (macList : List (MacSpec κ))
    (algorithm : Int) : String :=
  match spec_from_algo macList algorithm with
  | some spec => spec.name
  | none => "?"

/-- `check_mac_algo`: 0 when the descriptor exists and is not disabled, else
`GPG_ERR_MAC_ALGO`. -/
def check_mac_algo {κ : Type} (macList : List (MacSpec κ))
    (algorithm : Int) : ErrCode :=
  match spec_from_algo macList algorithm with
  | some spec => if spec.disabled then ErrCode.macAlgo else ErrCode.noError
  | none => ErrCode.macAlgo

/-- Observable outcome of `mac_open`/`gcry_mac_open`: the error code, the
value stored through the output handle pointer, the trace of successful
allocations (one `Bool` per allocation, `true` = secure pool), and the
number of `gcry_free` calls performed on the error path. -/
structure OpenResult (κ : Type) where
  err : ErrCode
  hd : Option (MacHd κ)
  allocs : List Bool
  frees : Nat

/-- `mac_open`: resolve the descriptor, reject disabled descriptors, NULL
capability tables and tables missing a mandatory operation with
`GPG_ERR_MAC_ALGO`; then allocate the zero-initialized handle from the pool
selected by `secure` (`allocOk = false` models `calloc` returning NULL),
stamp the magic tag, bind descriptor/algo/context, and run the algorithm's
`open` callback on the zeroed context `zero`, releasing the handle if it
fails. -/
def mac_open {κ : Type} (macList : List (MacSpec κ)) (algo : Int)
    (secure : Bool) (gctx : Option Nat) (allocOk : Bool) (zero : κ) :
    OpenResult κ :=
  match spec_from_algo macList algo with
  | none => ⟨ErrCode.macAlgo, none, [], 0⟩
  | some spec =>
    if spec.disabled then ⟨ErrCode.macAlgo, none, [], 0⟩
    else
      match spec.ops with
      | none => ⟨ErrCode.macAlgo, none, [], 0⟩
      | some ops =>
        match ops.op_open with
        | none => ⟨ErrCode.macAlgo, none, [], 0⟩
        | some fopen =>
          if ops.write.isNone ∨ ops.setkey.isNone ∨ ops.read.isNone ∨
             ops.verify.isNone ∨ ops.reset.isNone then
            ⟨ErrCode.macAlgo, none, [], 0⟩
          else if allocOk then
            let h : MacHd κ :=
              { magic := if secure then CTX_MAGIC_SECURE else CTX_MAGIC_NORMAL
                spec := spec
                algo := algo
                gcry_ctx := gctx
                ctx := zero }
            let r := fopen h.ctx
            if r.1 = ErrCode.noError then
              ⟨ErrCode.noError, some { h with ctx := r.2 }, [secure], 0⟩
            else
              ⟨r.1, none, [secure], 1⟩
          else ⟨ErrCode.sysError, none, [], 0⟩

/-- `gcry_mac_open`: reject any flag bit other than `GCRY_MAC_FLAG_SECURE`
with `GPG_ERR_INV_ARG` before calling `mac_open`; store NULL through the
output pointer on every error. -/
def gcry_mac_open {κ : Type} (macList : List (MacSpec κ)) (algo : Int)
    (flags : Nat) (gctx : Option Nat) (allocOk : Bool) (zero : κ) :
    OpenResult κ :=
  if (flags &&& UINT32_MASK) &&& (UINT32_MASK ^^^ GCRY_MAC_FLAG_SECURE) ≠ 0
  then ⟨ErrCode.invArg, none, [], 0⟩
  else
    let r := mac_open macList algo
      (decide ((flags &&& GCRY_MAC_FLAG_SECURE) ≠ 0)) gctx allocOk zero
    { r with hd := if r.err = ErrCode.noError then r.hd else none }

/-- `mac_reset`: run the descriptor's `reset` callback when present, else
return 0 without invoking anything. -/
def mac_reset {κ : Type} (hd : MacHd κ) : Option (ErrCode × MacHd κ) :=
  match hd.spec.ops with
  | none => none
  | some ops =>
    match ops.reset with
    | some f =>
      let r := f hd.ctx
      some (r.1, { hd with ctx := r.2 })
    | none => some (ErrCode.noError, hd)

/-- Teardown events of `mac_close`, in execution order. -/
inductive CloseEvent where
  | callClose
  | wipe
  | free
deriving DecidableEq, Repr

/-- `mac_close`: run the descriptor's `close` callback iff present, then
`wipememory` the whole handle, then `gcry_free` it.  Returns void — the
trace records the order of the teardown effects. -/
def mac_close {κ : Type} (hd : MacHd κ) : Option (List CloseEvent) :=
  match hd.spec.ops with
  | none => none
  | some ops =>
    some ((match ops.close with
           | some _ => [CloseEvent.callClose]
           | none => []) ++ [CloseEvent.wipe, CloseEvent.free])

/-- `mac_setkey`: missing capability or a NULL key with `keylen > 0` yields
`GPG_ERR_INV_ARG`; otherwise the call is forwarded verbatim. -/
def mac_setkey {κ : Type} (hd : MacHd κ) (key : Option (List Nat))
    (keylen : Nat) : Option (ErrCode × MacHd κ) :=
  match hd.spec.ops with
  | none => none
  | some ops =>
    match ops.setkey with
    | none => some (ErrCode.invArg, hd)
    | some f =>
      if keylen > 0 ∧ key = none then some (ErrCode.invArg, hd)
      else
        let r := f hd.ctx key keylen
        some (r.1, { hd with ctx := r.2 })

/-- `mac_setiv`: same generic validation as `mac_setkey`. -/
def mac_setiv {κ : Type} (hd : MacHd κ) (iv : Option (List Nat))
    (ivlen : Nat) : Option (ErrCode × MacHd κ) :=
  match hd.spec.ops with
  | none => none
  | some ops =>
    match ops.setiv with
    | none => some (ErrCode.invArg, hd)
    | some f =>
      if ivlen > 0 ∧ iv = none then some (ErrCode.invArg, hd)
      else
        let r := f hd.ctx iv ivlen
        some (r.1, { hd with ctx := r.2 })

/-- `mac_write`: same generic validation as `mac_setkey`. -/
def mac_write {κ : Type} (hd : MacHd κ) (inbuf : Option (List Nat))
    (inlen : Nat) : Option (ErrCode × MacHd κ) :=
  match hd.spec.ops with
  | none => none
  | some ops =>
    match ops.write with
    | none => some (ErrCode.invArg, hd)
    | some f =>
      if inlen > 0 ∧ inbuf = none then some (ErrCode.invArg, hd)
      else
        let r := f hd.ctx inbuf inlen
        some (r.1, { hd with ctx := r.2 })

/-- `mac_read`: NULL `outbuf`, NULL `outlen` or `*outlen == 0` yield
`GPG_ERR_INV_ARG` (checked before the capability, per C short-circuit
order); the result carries the updated `*outlen`. -/
def mac_read {κ : Type} (hd : MacHd κ) (outbuf : Option (List Nat))
    (outlen : Option Nat) : Option (ErrCode × MacHd κ × Option Nat) :=
  if outbuf.isNone ∨ outlen.isNone ∨ outlen = some 0 then
    some (ErrCode.invArg, hd, outlen)
  else
    match hd.spec.ops with
    | none => none
    | some ops =>
      match ops.read with
      | none => some (ErrCode.invArg, hd, outlen)
      | some f =>
        match outlen with
        | some n =>
          let r := f hd.ctx n
          some (r.1, { hd with ctx := r.2.1 }, some r.2.2)
        | none => none

/-- `mac_verify`: NULL `buf` or `buflen == 0` yield `GPG_ERR_INV_ARG`
(checked before the capability, per C short-circuit order). -/
def mac_verify {κ : Type} (hd : MacHd κ) (buf : Option (List Nat))
    (buflen : Nat) : Option (ErrCode × MacHd κ) :=
  if buf.isNone ∨ buflen = 0 then some (ErrCode.invArg, hd)
  else
    match hd.spec.ops with
    | none => none
    | some ops =>
      match ops.verify with
      | none => some (ErrCode.invArg, hd)
      | some f =>
        let r := f hd.ctx buf buflen
        some (r.1, { hd with ctx := r.2 })

/-- `gcry_mac_get_algo_maclen`: 0 for an unknown id, a NULL capability table
or an absent accessor, else the accessor's value. -/
def gcry_mac_get_algo_maclen {κ : Type} (macList : List (MacSpec κ))
    (algo : Int) : Nat :=
  match spec_from_algo macList algo with
  | none => 0
  | some spec =>
    match spec.ops with
    | none => 0
    | some ops =>
      match ops.get_maclen with
      | none => 0
      | some f => f algo

/-- `gcry_mac_get_algo_keylen`: 0 for an unknown id, a NULL capability table
or an absent accessor, else the accessor's value. -/
def gcry_mac_get_algo_keylen {κ : Type} (macList : List (MacSpec κ))
    (algo : Int) : Nat :=
  match spec_from_algo macList algo with
  | none => 0
  | some spec =>
    match spec.ops with
    | none => 0
    | some ops =>
      match ops.get_keylen with
      | none => 0
      | some f => f algo

/-- `gcry_mac_ctl`: `GCRYCTL_RESET` dispatches to `mac_reset`; every other
command fails with `GPG_ERR_INV_OP`. -/
def gcry_mac_ctl {κ : Type} (hd : MacHd κ) (cmd : GcryCtl)
    (buffer : Option (List Nat)) (buflen : Nat) :
    Option (ErrCode × MacHd κ) :=
  match cmd with
  | GcryCtl.GCRYCTL_RESET => mac_reset hd
  | _ =>
    let _ := buffer
    let _ := buflen
    some (ErrCode.invOp, hd)

/-- `gcry_mac_algo_info`: `GCRYCTL_GET_KEYLEN` writes the key length through
`nbytes` when nonzero and fails with `GPG_ERR_MAC_ALGO` when it is 0;
`GCRYCTL_TEST_ALGO` requires both extra arguments absent and then returns
`check_mac_algo`; anything else fails with `GPG_ERR_INV_OP`.  The second
component of the result is the final contents of `*nbytes`. -/
def gcry_mac_algo_info {κ : Type} (macList : List (MacSpec κ)) (algo : Int)
    (what : GcryCtl) (buffer : Option (List Nat)) (nbytes : Option Nat) :
    ErrCode × Option Nat :=
  match what with
  | GcryCtl.GCRYCTL_GET_KEYLEN =>
    if buffer.isSome ∨ nbytes.isNone then (ErrCode.invArg, nbytes)
    else
      let ui := gcry_mac_get_algo_keylen macList algo
      if ui > 0 then (ErrCode.noError, some ui)
      else (ErrCode.macAlgo, nbytes)
  | GcryCtl.GCRYCTL_TEST_ALGO =>
    if buffer.isSome ∨ nbytes.isSome then (ErrCode.invArg, nbytes)
    else (check_mac_algo macList algo, nbytes)
  | _ => (ErrCode.invOp, nbytes)

/-- `gcry_mac_setkey`: wraps `mac_setkey` (`gpg_error` is the identity on
codes in this embedding). -/
def gcry_mac_setkey {κ : Type} (hd : MacHd κ) (key : Option (List Nat))
    (keylen : Nat) : Option (ErrCode × MacHd κ) :=
  mac_setkey hd key keylen

/-- `gcry_mac_setiv`: wraps `mac_setiv`. -/
def gcry_mac_setiv {κ : Type} (hd : MacHd κ) (iv : Option (List Nat))
    (ivlen : Nat) : Option (ErrCode × MacHd κ) :=
  mac_setiv hd iv ivlen

/-- `gcry_mac_write`: wraps `mac_write`. -/
def gcry_mac_write {κ : Type} (hd : MacHd κ) (inbuf : Option (List Nat))
    (inlen : Nat) : Option (ErrCode × MacHd κ) :=
  mac_write hd inbuf inlen

/-- `gcry_mac_read`: wraps `mac_read`. -/
def gcry_mac_read {κ : Type} (hd : MacHd κ) (outbuf : Option (List Nat))
    (outlen : Option Nat) : Option (ErrCode × MacHd κ × Option Nat) :=
  mac_read hd outbuf outlen

/-- `gcry_mac_verify`: wraps `mac_verify`. -/
def gcry_mac_verify {κ : Type} (hd : MacHd κ) (buf : Option (List Nat))
    (buflen : Nat) : Option (ErrCode × MacHd κ) :=
  mac_verify hd buf buflen

/-- `gcry_mac_close`: wraps `mac_close`. -/
def gcry_mac_close {κ : Type} (hd : MacHd κ) : Option (List CloseEvent) :=
  mac_close hd

/-- A successful `spec_from_algo` lookup returns a registered descriptor
with the requested id. -/
theorem spec_from_algo_eq_some {κ : Type} {macList : List (MacSpec κ)}
    {algo : Int} {s : MacSpec κ} (h : spec_from_algo macList algo = some s) :
    s ∈ macList ∧ s.algo = algo := by
  refine ⟨List.mem_of_find?_eq_some h, ?_⟩
  have hp := List.find?_some h
  exact (eq_of_beq hp).symm

/-- A successful `spec_from_name` lookup returns a registered descriptor
whose name matches case-insensitively. -/
theorem spec_from_name_eq_some {κ : Type} {macList : List (MacSpec κ)}
    {name : String} {s : MacSpec κ}
    (h : spec_from_name macList name = some s) :
    s ∈ macList ∧ stricmp_eq name s.name = true := by
  unfold spec_from_name at h
  have hp := List.find?_some h
  exact ⟨List.mem_of_find?_eq_some h, hp⟩

/-- Case-insensitive comparison is reflexive. -/
theorem stricmp_eq_refl (a : String) : stricmp_eq a a = true := by
  simp [stricmp_eq]

/-- A registered name is found by `spec_from_name`. -/
theorem spec_from_name_exists {κ : Type} {macList : List (MacSpec κ)}
    {s : MacSpec κ} (hmem : s ∈ macList) :
    ∃ t, spec_from_name macList s.name = some t := by
  have hsome : (macList.find? (fun sp => stricmp_eq s.name sp.name)).isSome :=
    List.find?_isSome.mpr ⟨s, hmem, stricmp_eq_refl s.name⟩
  exact Option.isSome_iff_exists.mp hsome

/-- Modelled from the spec: a complete HMAC-style capability table (all
mandatory operations plus the optional `close`/`setiv`), with schematic
context transitions; the real tables live in `hmac.c`, outside this
dispatcher. -/
def opsFull : MacOps Nat :=
  { op_open := some (fun c => (ErrCode.noError, c))
    close := some (fun _ => 0)
    setkey := some (fun c _ l => (ErrCode.noError, c + l))
    setiv := some (fun c _ l => (ErrCode.noError, c + l))
    write := some (fun c _ l => (ErrCode.noError, c + l))
    read := some (fun c n => (ErrCode.noError, c, n))
    verify := some (fun c _ _ => (ErrCode.noError, c))
    reset := some (fun _ => (ErrCode.noError, 0))
    get_maclen := some (fun _ => 32)
    get_keylen := some (fun _ => 64) }

/-- Modelled from the spec: a capability table with the mandatory subset
only — `setiv` and `close` are absent, which the spec declares a legal
no-op. -/
def opsNoSetiv : MacOps Nat :=
  { opsFull with setiv := none, close := none }

/-- Modelled from the spec: a capability table whose `open` callback fails,
to exercise the open-failure path. -/
def opsFailOpen : MacOps Nat :=
  { opsFull with op_open := some (fun c => (ErrCode.other 7, c)) }

/-- Modelled from the spec: descriptor with a complete capability table. -/
def specA : MacSpec Nat := ⟨101, "HMAC_SHA256", false, some opsFull⟩

/-- Modelled from the spec: descriptor without `setiv`/`close`. -/
def specB : MacSpec Nat := ⟨105, "HMAC_SHA1", false, some opsNoSetiv⟩

/-- Modelled from the spec: a disabled descriptor. -/
def specDisabled : MacSpec Nat := ⟨106, "HMAC_MD5", true, some opsFull⟩

/-- Modelled from the spec: descriptor whose `open` callback fails. -/
def specFailOpen : MacSpec Nat := ⟨108, "HMAC_RMD160", false, some opsFailOpen⟩

/-- Modelled from the spec: descriptor with a NULL capability table. -/
def specNoOps : MacSpec Nat := ⟨107, "HMAC_MD4", false, none⟩

/-- Modelled from the spec: a concrete compiled-in registry, standing in for
`mac_list` whose descriptor structs are defined outside this dispatcher. -/
def macListModel : List (MacSpec Nat) :=
  [specA, specB, specDisabled, specFailOpen]

/-- Modelled from the spec: a registry variant containing a descriptor with
a NULL capability table, for the accessor fallback paths. -/
def macListNoOps : List (MacSpec Nat) := [specNoOps]

/-- The handle produced by opening `specA` (normal pool). -/
def hdA : MacHd Nat := ⟨CTX_MAGIC_NORMAL, specA, 101, none, 0⟩

/-- The handle produced by opening `specB` (normal pool). -/
def hdB : MacHd Nat := ⟨CTX_MAGIC_NORMAL, specB, 105, none, 0⟩

/-- **C4**: for all registered algorithm ids,
`algo_name (map_name (algo_name id)) = algo_name id` — mapping a registered
id to its name and back through the case-insensitive name lookup yields the
same name, provided no two registered descriptors carry case-insensitively
equal names (here: equal names force equal ids). -/
theorem C4_name_id_roundtrip {κ : Type} (macList : List (MacSpec κ))
    (id : Int) (s : MacSpec κ) (hreg : spec_from_algo macList id = some s)
    (huniq : ∀ a ∈ macList, ∀ b ∈ macList,
      stricmp_eq a.name b.name = true → a.algo = b.algo) :
    gcry_mac_algo_name macList
        (gcry_mac_map_name macList (some (gcry_mac_algo_name macList id))) =
      gcry_mac_algo_name macList id := by
  obtain ⟨hmem, halgo⟩ := spec_from_algo_eq_some hreg
  have hname : gcry_mac_algo_name macList id = s.name := by
    simp [gcry_mac_algo_name, hreg]
  obtain ⟨t, ht⟩ := spec_from_name_exists hmem
  obtain ⟨htmem, htp⟩ := spec_from_name_eq_some ht
  have hid : s.algo = t.algo := huniq s hmem t htmem htp
  have hmap :
      gcry_mac_map_name macList (some (gcry_mac_algo_name macList id)) = id := by
    rw [hname]
    simp only [gcry_mac_map_name, ht]
    rw [← hid, halgo]
  rw [hmap]

/-- **C4 witness**: the round trip at the concrete modelled registry and the
registered id 101. -/
theorem C4_name_id_roundtrip_witness :
    gcry_mac_algo_name macListModel
        (gcry_mac_map_name macListModel
          (some (gcry_mac_algo_name macListModel 101))) =
      gcry_mac_algo_name macListModel 101 :=
  C4_name_id_roundtrip macListModel 101 specA rfl (by decide)

/-- **C6**: `gcry_mac_algo_name` is total: it returns the descriptor's name
for a registered id and the placeholder `"?"` for id 0 or any unregistered
id, never the empty string; and `gcry_mac_map_name` returns 0 for a NULL
string, an empty string or an unknown name, and the (nonzero) resolved id
otherwise.  The registry-side facts that no descriptor has an empty name and
none uses the reserved id 0 enter as hypotheses. -/
theorem C6_name_queries_total {κ : Type} (macList : List (MacSpec κ))
    (hname : ∀ s ∈ macList, s.name ≠ "")
    (hzero : ∀ s ∈ macList, s.algo ≠ 0) :
    (∀ id s, spec_from_algo macList id = some s →
      gcry_mac_algo_name macList id = s.name) ∧
    (∀ id, spec_from_algo macList id = none →
      gcry_mac_algo_name macList id = "?") ∧
    gcry_mac_algo_name macList 0 = "?" ∧
    (∀ id, gcry_mac_algo_name macList id ≠ "") ∧
    gcry_mac_map_name macList none = 0 ∧
    gcry_mac_map_name macList (some "") = 0 ∧
    (∀ nm, spec_from_name macList nm = none →
      gcry_mac_map_name macList (some nm) = 0) ∧
    (∀ nm s, spec_from_name macList nm = some s →
      gcry_mac_map_name macList (some nm) = s.algo ∧ s.algo ≠ 0) := by
  have hzeroNone : spec_from_algo macList 0 = none := by
    cases h : spec_from_algo macList 0 with
    | none => rfl
    | some s =>
      obtain ⟨hmem, halgo⟩ := spec_from_algo_eq_some h
      exact absurd halgo (hzero s hmem)
  refine ⟨?_, ?_, ?_, ?_, ?_, ?_, ?_, ?_⟩
  · intro id s h
    simp [gcry_mac_algo_name, h]
  · intro id h
    simp [gcry_mac_algo_name, h]
  · simp [gcry_mac_algo_name, hzeroNone]
  · intro id
    cases h : spec_from_algo macList id with
    | none => simp [gcry_mac_algo_name, h]
    | some s =>
      obtain ⟨hmem, _⟩ := spec_from_algo_eq_some h
      simpa [gcry_mac_algo_name, h] using hname s hmem
  · rfl
  · cases h : spec_from_name macList "" with
    | none => simp [gcry_mac_map_name, h]
    | some s =>
      obtain ⟨hmem, hp⟩ := spec_from_name_eq_some h
      have hdata : s.name.data.map tolower = [] := (of_decide_eq_true hp).symm
      have hnil : s.name.data = [] := by
        simpa using hdata
      have : s.name = "" := by
        cases hs : s.name with
        | mk l => simp [hs] at hnil; simp [hnil]
      exact absurd this (hname s hmem)
  · intro nm h
    simp [gcry_mac_map_name, h]
  · intro nm s h
    obtain ⟨hmem, _⟩ := spec_from_name_eq_some h
    exact ⟨by simp [gcry_mac_map_name, h], hzero s hmem⟩

/-- **C6 witness**: totality at the concrete modelled registry — the
placeholder for id 0, map of the empty string, and the round trip of a
registered name. -/
theorem C6_name_queries_total_witness :
    gcry_mac_algo_name macListModel 0 = "?" ∧
    gcry_mac_map_name macListModel (some "") = 0 ∧
    gcry_mac_map_name macListModel none = 0 := by
  have h := C6_name_queries_total macListModel (by decide) (by decide)
  exact ⟨h.2.2.1, h.2.2.2.2.2.1, h.2.2.2.2.1⟩

/-- **C2**: under the registry-wide fact that every compiled-in descriptor
carries a non-null capability table, `check_mac_algo` (reachable through
`gcry_mac_algo_info` with `GCRYCTL_TEST_ALGO` and absent extra arguments)
returns 0 iff the id resolves to a registered, non-disabled descriptor whose
capability table is non-null, and returns `GPG_ERR_MAC_ALGO` (the
UnknownAlgorithm code) otherwise. -/
theorem C2_check_mac_algo_iff {κ : Type} (macList : List (MacSpec κ))
    (hops : ∀ s ∈ macList, s.ops.isSome = true) (algo : Int) :
    (check_mac_algo macList algo = ErrCode.noError ↔
      ∃ s, spec_from_algo macList algo = some s ∧ s.disabled = false ∧
        s.ops ≠ none) ∧
    (check_mac_algo macList algo ≠ ErrCode.noError →
      check_mac_algo macList algo = ErrCode.macAlgo) ∧
    gcry_mac_algo_info macList algo GcryCtl.GCRYCTL_TEST_ALGO none none =
      (check_mac_algo macList algo, none) := by
  refine ⟨?_, ?_, ?_⟩
  · constructor
    · intro h
      cases hs : spec_from_algo macList algo with
      | none => simp [check_mac_algo, hs] at h
      | some s =>
        obtain ⟨hmem, _⟩ := spec_from_algo_eq_some hs
        refine ⟨s, rfl, ?_, ?_⟩
        · by_contra hdis
          have hdis' : s.disabled = true := by
            cases hd : s.disabled with
            | true => rfl
            | false => exact absurd hd hdis
          simp [check_mac_algo, hs, hdis'] at h
        · have := hops s hmem
          exact Option.isSome_iff_ne_none.mp this
    · rintro ⟨s, hs, hdis, -⟩
      simp [check_mac_algo, hs, hdis]
  · intro h
    cases hs : spec_from_algo macList algo with
    | none => simp [check_mac_algo, hs]
    | some s =>
      cases hd : s.disabled with
      | true => simp [check_mac_algo, hs, hd]
      | false => exact absurd (by simp [check_mac_algo, hs, hd]) h
  · rfl

/-- **C2 witness**: the modelled registry — id 101 is available, the
disabled id 106 and the unknown id 999 are not. -/
theorem C2_check_mac_algo_iff_witness :
    check_mac_algo macListModel 101 = ErrCode.noError ∧
    gcry_mac_algo_info macListModel 101 GcryCtl.GCRYCTL_TEST_ALGO none none =
      (ErrCode.noError, none) := by
  have h := C2_check_mac_algo_iff macListModel (by decide) 101
  refine ⟨h.1.mpr ⟨specA, rfl, rfl, by simp [specA]⟩, ?_⟩
  have h3 := h.2.2
  rwa [h.1.mpr ⟨specA, rfl, rfl, by simp [specA]⟩] at h3

/-- **C8**: `gcry_mac_get_algo_keylen` and `gcry_mac_get_algo_maclen`
return 0 for an unknown id, a NULL capability table or an absent accessor
and otherwise delegate to the accessor; `gcry_mac_algo_info` with
`GCRYCTL_GET_KEYLEN` writes the key length through `*nbytes` when it is
nonzero and fails with `GPG_ERR_MAC_ALGO` when it is 0; every query other
than `GCRYCTL_GET_KEYLEN` and `GCRYCTL_TEST_ALGO` fails with
`GPG_ERR_INV_OP` (the UnsupportedOperation code). -/
theorem C8_keylen_queries {κ : Type} (macList : List (MacSpec κ))
    (algo : Int) :
    (spec_from_algo macList algo = none →
      gcry_mac_get_algo_keylen macList algo = 0 ∧
      gcry_mac_get_algo_maclen macList algo = 0) ∧
    (∀ s, spec_from_algo macList algo = some s → s.ops = none →
      gcry_mac_get_algo_keylen macList algo = 0 ∧
      gcry_mac_get_algo_maclen macList algo = 0) ∧
    (∀ s o, spec_from_algo macList algo = some s → s.ops = some o →
      (o.get_keylen = none → gcry_mac_get_algo_keylen macList algo = 0) ∧
      (∀ f, o.get_keylen = some f →
        gcry_mac_get_algo_keylen macList algo = f algo) ∧
      (o.get_maclen = none → gcry_mac_get_algo_maclen macList algo = 0) ∧
      (∀ f, o.get_maclen = some f →
        gcry_mac_get_algo_maclen macList algo = f algo)) ∧
    (∀ n prev, gcry_mac_get_algo_keylen macList algo = n → 0 < n →
      gcry_mac_algo_info macList algo GcryCtl.GCRYCTL_GET_KEYLEN none
        (some prev) = (ErrCode.noError, some n)) ∧
    (∀ prev, gcry_mac_get_algo_keylen macList algo = 0 →
      gcry_mac_algo_info macList algo GcryCtl.GCRYCTL_GET_KEYLEN none
        (some prev) = (ErrCode.macAlgo, some prev)) ∧
    (∀ n buffer nbytes,
      gcry_mac_algo_info macList algo (GcryCtl.other n) buffer nbytes =
        (ErrCode.invOp, nbytes)) ∧
    (∀ buffer nbytes,
      gcry_mac_algo_info macList algo GcryCtl.GCRYCTL_RESET buffer nbytes =
        (ErrCode.invOp, nbytes)) := by
  refine ⟨?_, ?_, ?_, ?_, ?_, ?_, ?_⟩
  · intro h
    constructor <;> simp [gcry_mac_get_algo_keylen, gcry_mac_get_algo_maclen, h]
  · intro s hs hops
    constructor <;>
      simp [gcry_mac_get_algo_keylen, gcry_mac_get_algo_maclen, hs, hops]
  · intro s o hs hops
    refine ⟨?_, ?_, ?_, ?_⟩
    · intro h; simp [gcry_mac_get_algo_keylen, hs, hops, h]
    · intro f h; simp [gcry_mac_get_algo_keylen, hs, hops, h]
    · intro h; simp [gcry_mac_get_algo_maclen, hs, hops, h]
    · intro f h; simp [gcry_mac_get_algo_maclen, hs, hops, h]
  · intro n prev hn hpos
    simp [gcry_mac_algo_info, hn, hpos]
  · intro prev h0
    simp [gcry_mac_algo_info, h0]
  · intro n buffer nbytes; rfl
  · intro buffer nbytes; rfl

/-- **C8 witness**: the accessor value 64 is surfaced through `*nbytes` for
the registered id 101; the descriptor with a NULL capability table yields 0
and the `GPG_ERR_MAC_ALGO` failure; a foreign query fails with
`GPG_ERR_INV_OP`. -/
theorem C8_keylen_queries_witness :
    gcry_mac_algo_info macListModel 101 GcryCtl.GCRYCTL_GET_KEYLEN none
      (some 9) = (ErrCode.noError, some 64) ∧
    gcry_mac_get_algo_keylen macListNoOps 107 = 0 ∧
    gcry_mac_algo_info macListNoOps 107 GcryCtl.GCRYCTL_GET_KEYLEN none
      (some 9) = (ErrCode.macAlgo, some 9) ∧
    gcry_mac_algo_info macListModel 101 (GcryCtl.other 3) none none =
      (ErrCode.invOp, none) := by
  have h1 := (C8_keylen_queries macListModel 101).2.2.2.1 64 9 rfl (by decide)
  have h2 := ((C8_keylen_queries macListNoOps 107).2.1 specNoOps rfl rfl).1
  have h3 := (C8_keylen_queries macListNoOps 107).2.2.2.2.1 9 rfl
  have h4 := (C8_keylen_queries macListModel 101).2.2.2.2.2.1 3 none none
  exact ⟨h1, h2, h3, h4⟩

/-- **C1 counterexample**: `specB` opens successfully (its `setiv`
capability is legally absent), yet `mac_setiv` on the resulting handle with
valid arguments returns `GPG_ERR_INV_ARG` — the dispatcher does NOT
translate a missing capability into the `GPG_ERR_INV_OP`
(UnsupportedOperation) code the claim asserts, and `INV_ARG` is exactly the
code the claim reserves for null/zero-length violations. -/
theorem C1_counterexample :
    (mac_open macListModel 105 false none true 0).err = ErrCode.noError ∧
    (mac_open macListModel 105 false none true 0).hd = some hdB ∧
    hdB.spec.ops = some opsNoSetiv ∧ opsNoSetiv.setiv = none ∧
    mac_setiv hdB (some [1]) 1 = some (ErrCode.invArg, hdB) ∧
    ErrCode.invArg ≠ ErrCode.invOp :=
  ⟨rfl, rfl, rfl, rfl, rfl, by decide⟩

/-- **C1 (amended)**: for every open handle and each dispatch operation
among setkey, setiv, write, read and verify, if the bound descriptor's
capability table lacks that operation the call returns `GPG_ERR_INV_ARG` —
the same InvalidArgument code used for null/zero-length violations, not a
distinct UnsupportedOperation code — and the handle's state is unchanged.
(For read and verify the arguments must pass the pointer checks that
precede the capability check, or the same code is returned anyway.) -/
theorem C1_missing_capability_inv_arg {κ : Type} (hd : MacHd κ)
    (o : MacOps κ) (ho : hd.spec.ops = some o) :
    (o.setkey = none → ∀ key keylen,
      mac_setkey hd key keylen = some (ErrCode.invArg, hd)) ∧
    (o.setiv = none → ∀ iv ivlen,
      mac_setiv hd iv ivlen = some (ErrCode.invArg, hd)) ∧
    (o.write = none → ∀ inbuf inlen,
      mac_write hd inbuf inlen = some (ErrCode.invArg, hd)) ∧
    (o.read = none → ∀ outbuf n, outbuf ≠ none → n ≠ 0 →
      mac_read hd outbuf (some n) = some (ErrCode.invArg, hd, some n)) ∧
    (o.verify = none → ∀ buf buflen, buf ≠ none → buflen ≠ 0 →
      mac_verify hd buf buflen = some (ErrCode.invArg, hd)) := by
  refine ⟨?_, ?_, ?_, ?_, ?_⟩
  · intro h key keylen
    simp [mac_setkey, ho, h]
  · intro h iv ivlen
    simp [mac_setiv, ho, h]
  · intro h inbuf inlen
    simp [mac_write, ho, h]
  · intro h outbuf n hb hn
    simp [mac_read, ho, h, Option.isNone_iff_eq_none, hb, hn]
  · intro h buf buflen hb hn
    simp [mac_verify, ho, h, Option.isNone_iff_eq_none, hb, hn]

/-- **C1 (amended) witness**: the open handle over `specB`, whose table
lacks `setiv`, receives `GPG_ERR_INV_ARG` with its state unchanged. -/
theorem C1_missing_capability_inv_arg_witness :
    mac_setiv hdB (some [2]) 1 = some (ErrCode.invArg, hdB) :=
  (C1_missing_capability_inv_arg hdB opsNoSetiv rfl).2.1 rfl (some [2]) 1

/-- **C5**: for a handle whose descriptor provides the operation,
setkey/setiv/write with length 0 and a NULL pointer are not rejected by the
dispatcher — the call is forwarded verbatim to the capability (so a no-op
zero-byte write succeeds whenever the algorithm accepts it) — while
length > 0 with a NULL pointer returns `GPG_ERR_INV_ARG` with the handle
unchanged, i.e. without invoking the algorithm; and read returns
`GPG_ERR_INV_ARG` whenever `outbuf` is NULL, `outlen` is NULL or
`*outlen == 0`, regardless of the buffer pointer. -/
theorem C5_generic_argument_validation {κ : Type} (hd : MacHd κ)
    (o : MacOps κ) (ho : hd.spec.ops = some o) :
    (∀ f, o.setkey = some f → mac_setkey hd none 0 =
      some ((f hd.ctx none 0).1, { hd with ctx := (f hd.ctx none 0).2 })) ∧
    (∀ f, o.setiv = some f → mac_setiv hd none 0 =
      some ((f hd.ctx none 0).1, { hd with ctx := (f hd.ctx none 0).2 })) ∧
    (∀ f, o.write = some f → mac_write hd none 0 =
      some ((f hd.ctx none 0).1, { hd with ctx := (f hd.ctx none 0).2 })) ∧
    (∀ keylen, 0 < keylen →
      mac_setkey hd none keylen = some (ErrCode.invArg, hd)) ∧
    (∀ ivlen, 0 < ivlen →
      mac_setiv hd none ivlen = some (ErrCode.invArg, hd)) ∧
    (∀ inlen, 0 < inlen →
      mac_write hd none inlen = some (ErrCode.invArg, hd)) ∧
    (∀ outlen, mac_read hd none outlen =
      some (ErrCode.invArg, hd, outlen)) ∧
    (∀ outbuf, mac_read hd outbuf none =
      some (ErrCode.invArg, hd, none)) ∧
    (∀ outbuf, mac_read hd outbuf (some 0) =
      some (ErrCode.invArg, hd, some 0)) := by
  refine ⟨?_, ?_, ?_, ?_, ?_, ?_, ?_, ?_, ?_⟩
  · intro f hf; simp [mac_setkey, ho, hf]
  · intro f hf; simp [mac_setiv, ho, hf]
  · intro f hf; simp [mac_write, ho, hf]
  · intro keylen hpos
    cases hsk : o.setkey with
    | none => simp [mac_setkey, ho, hsk]
    | some f => simp [mac_setkey, ho, hsk, hpos]
  · intro ivlen hpos
    cases hsk : o.setiv with
    | none => simp [mac_setiv, ho, hsk]
    | some f => simp [mac_setiv, ho, hsk, hpos]
  · intro inlen hpos
    cases hsk : o.write with
    | none => simp [mac_write, ho, hsk]
    | some f => simp [mac_write, ho, hsk, hpos]
  · intro outlen; simp [mac_read]
  · intro outbuf; simp [mac_read]
  · intro outbuf; simp [mac_read]

/-- **C5 witness**: on the fully-capable handle, a zero-length NULL setkey
is forwarded (and the schematic algorithm accepts it), a NULL setkey of
length 5 is rejected with `GPG_ERR_INV_ARG` and an unchanged handle, and
read rejects `*outlen == 0` even with a valid buffer. -/
theorem C5_generic_argument_validation_witness :
    mac_setkey hdA none 0 = some (ErrCode.noError, hdA) ∧
    mac_setkey hdA none 5 = some (ErrCode.invArg, hdA) ∧
    mac_read hdA (some [0, 0]) (some 0) =
      some (ErrCode.invArg, hdA, some 0) := by
  have h := C5_generic_argument_validation hdA opsFull rfl
  refine ⟨?_, h.2.2.2.1 5 (by decide), h.2.2.2.2.2.2.2.2 (some [0, 0])⟩
  have h1 := h.1 (fun c _ l => (ErrCode.noError, c + l)) rfl
  exact h1

/-- **C7**: `mac_close` performs, in order, the descriptor's close callback
iff one is present (its absence is a legal no-op), then the full-handle
wipe, then the release; it produces no error value.  The trace is always
defined (`some`) for a handle with a capability table, and the wipe event
strictly precedes the free event. -/
theorem C7_close_teardown {κ : Type} (hd : MacHd κ) (o : MacOps κ)
    (ho : hd.spec.ops = some o) :
    ∃ evs, mac_close hd = some evs ∧
      (CloseEvent.callClose ∈ evs ↔ o.close.isSome = true) ∧
      (o.close.isSome = true →
        evs = [CloseEvent.callClose, CloseEvent.wipe, CloseEvent.free]) ∧
      (o.close.isSome = false →
        evs = [CloseEvent.wipe, CloseEvent.free]) := by
  cases hc : o.close with
  | none =>
    refine ⟨[CloseEvent.wipe, CloseEvent.free], ?_, ?_, ?_, ?_⟩
    · simp [mac_close, ho, hc]
    · simp [hc]
    · simp [hc]
    · intro h; rfl
  | some f =>
    refine ⟨[CloseEvent.callClose, CloseEvent.wipe, CloseEvent.free],
      ?_, ?_, ?_, ?_⟩
    · simp [mac_close, ho, hc]
    · simp [hc]
    · intro h; rfl
    · simp [hc]

/-- **C7 witness**: the handle over the fully-capable descriptor runs its
close callback first; the handle over the descriptor without a close
callback skips straight to wipe-then-free. -/
theorem C7_close_teardown_witness :
    mac_close hdA =
      some [CloseEvent.callClose, CloseEvent.wipe, CloseEvent.free] ∧
    mac_close hdB = some [CloseEvent.wipe, CloseEvent.free] := by
  obtain ⟨evsA, hA1, -, hA3, -⟩ := C7_close_teardown hdA opsFull rfl
  obtain ⟨evsB, hB1, -, -, hB4⟩ := C7_close_teardown hdB opsNoSetiv rfl
  rw [hA3 rfl] at hA1
  rw [hB4 rfl] at hB1
  exact ⟨hA1, hB1⟩

/-- An option whose `isNone` test fails is `some`. -/
theorem isSome_of_not_isNone {α : Type} {o : Option α}
    (h : ¬ o.isNone = true) : o.isSome = true := by
  cases o <;> simp_all

/-- Inversion of a successful `mac_open`: a handle is stored only when the
descriptor was found enabled with a complete mandatory capability set, the
allocation succeeded and the algorithm's `open` callback accepted the zeroed
context; the stored handle and the full observable outcome are pinned
down. -/
theorem mac_open_success_inv {κ : Type} {macList : List (MacSpec κ)}
    {algo : Int} {secure : Bool} {gctx : Option Nat} {allocOk : Bool}
    {zero : κ} {hd : MacHd κ}
    (hhd : (mac_open macList algo secure gctx allocOk zero).hd = some hd) :
    ∃ s o fopen,
      spec_from_algo macList algo = some s ∧ s.disabled = false ∧
      s.ops = some o ∧ o.op_open = some fopen ∧
      o.write.isSome = true ∧ o.setkey.isSome = true ∧
      o.read.isSome = true ∧ o.verify.isSome = true ∧
      o.reset.isSome = true ∧ allocOk = true ∧
      (fopen zero).1 = ErrCode.noError ∧
      hd = { magic := if secure then CTX_MAGIC_SECURE else CTX_MAGIC_NORMAL,
             spec := s, algo := algo, gcry_ctx := gctx,
             ctx := (fopen zero).2 } ∧
      mac_open macList algo secure gctx allocOk zero =
        ⟨ErrCode.noError, some hd, [secure], 0⟩ := by
  unfold mac_open at hhd
  cases hs : spec_from_algo macList algo with
  | none => rw [hs] at hhd; simp at hhd
  | some s =>
    rw [hs] at hhd
    cases hdis : s.disabled with
    | true => simp [hdis] at hhd
    | false =>
      simp only [hdis, Bool.false_eq_true, if_false] at hhd
      cases hops : s.ops with
      | none => simp [hops] at hhd
      | some o =>
        simp only [hops] at hhd
        cases hopen : o.op_open with
        | none => simp [hopen] at hhd
        | some fopen =>
          simp only [hopen] at hhd
          by_cases hmand : (o.write.isNone = true ∨ o.setkey.isNone = true ∨
              o.read.isNone = true ∨ o.verify.isNone = true ∨
              o.reset.isNone = true)
          · rw [if_pos hmand] at hhd
            simp at hhd
          · push_neg at hmand
            obtain ⟨hw, hsk, hrd, hv, hrs⟩ := hmand
            cases hallocOk : allocOk with
            | false => simp [hallocOk, hw, hsk, hrd, hv, hrs] at hhd
            | true =>
              simp only [hallocOk, hw, hsk, hrd, hv, hrs, if_true,
                if_false, or_self, Bool.true_eq_false, iff_false,
                not_false_iff, false_or, or_false] at hhd
              by_cases herr : (fopen zero).1 = ErrCode.noError
              · simp only [herr, if_pos, if_true] at hhd
                refine ⟨s, o, fopen, rfl, hdis, hops, hopen,
                  isSome_of_not_isNone hw, isSome_of_not_isNone hsk,
                  isSome_of_not_isNone hrd, isSome_of_not_isNone hv,
                  isSome_of_not_isNone hrs, rfl, herr, ?_, ?_⟩
                · simp at hhd
                  exact hhd.symm
                · simp at hhd
                  unfold mac_open
                  rw [hs]
                  simp only [hdis, Bool.false_eq_true, if_false, hops, hopen]
                  simp [hallocOk, hw, hsk, hrd, hv, hrs, herr, hhd]
              · simp [herr] at hhd

/-- `mac_setkey` never touches the handle's magic tag, descriptor binding,
algorithm id or external context. -/
theorem mac_setkey_frame {κ : Type} {hd : MacHd κ} {key : Option (List Nat)}
    {keylen : Nat} {e : ErrCode} {hd' : MacHd κ}
    (h : mac_setkey hd key keylen = some (e, hd')) :
    hd'.magic = hd.magic ∧ hd'.spec = hd.spec ∧ hd'.algo = hd.algo ∧
    hd'.gcry_ctx = hd.gcry_ctx := by
  unfold mac_setkey at h
  cases hops : hd.spec.ops with
  | none => rw [hops] at h; simp at h
  | some o =>
    simp only [hops] at h
    cases hsk : o.setkey with
    | none =>
      simp only [hsk] at h
      obtain ⟨-, h2⟩ : ErrCode.invArg = e ∧ hd = hd' := by
        simpa using h
      rw [← h2]
      exact ⟨rfl, rfl, rfl, rfl⟩
    | some f =>
      simp only [hsk] at h
      by_cases hc : (keylen > 0 ∧ key = none)
      · rw [if_pos hc] at h
        obtain ⟨-, h2⟩ : ErrCode.invArg = e ∧ hd = hd' := by
          simpa using h
        rw [← h2]
        exact ⟨rfl, rfl, rfl, rfl⟩
      · rw [if_neg hc] at h
        obtain ⟨-, h2⟩ :
            (f hd.ctx key keylen).1 = e ∧
              { hd with ctx := (f hd.ctx key keylen).2 } = hd' := by
          simpa using h
        rw [← h2]
        exact ⟨rfl, rfl, rfl, rfl⟩

/-- `mac_setiv` never touches the handle's magic tag, descriptor binding,
algorithm id or external context. -/
theorem mac_setiv_frame {κ : Type} {hd : MacHd κ} {iv : Option (List Nat)}
    {ivlen : Nat} {e : ErrCode} {hd' : MacHd κ}
    (h : mac_setiv hd iv ivlen = some (e, hd')) :
    hd'.magic = hd.magic ∧ hd'.spec = hd.spec ∧ hd'.algo = hd.algo ∧
    hd'.gcry_ctx = hd.gcry_ctx := by
  unfold mac_setiv at h
  cases hops : hd.spec.ops with
  | none => rw [hops] at h; simp at h
  | some o =>
    simp only [hops] at h
    cases hsk : o.setiv with
    | none =>
      simp only [hsk] at h
      obtain ⟨-, h2⟩ : ErrCode.invArg = e ∧ hd = hd' := by
        simpa using h
      rw [← h2]
      exact ⟨rfl, rfl, rfl, rfl⟩
    | some f =>
      simp only [hsk] at h
      by_cases hc : (ivlen > 0 ∧ iv = none)
      · rw [if_pos hc] at h
        obtain ⟨-, h2⟩ : ErrCode.invArg = e ∧ hd = hd' := by
          simpa using h
        rw [← h2]
        exact ⟨rfl, rfl, rfl, rfl⟩
      · rw [if_neg hc] at h
        obtain ⟨-, h2⟩ :
            (f hd.ctx iv ivlen).1 = e ∧
              { hd with ctx := (f hd.ctx iv ivlen).2 } = hd' := by
          simpa using h
        rw [← h2]
        exact ⟨rfl, rfl, rfl, rfl⟩

/-- `mac_write` never touches the handle's magic tag, descriptor binding,
algorithm id or external context. -/
theorem mac_write_frame {κ : Type} {hd : MacHd κ} {inbuf : Option (List Nat)}
    {inlen : Nat} {e : ErrCode} {hd' : MacHd κ}
    (h : mac_write hd inbuf inlen = some (e, hd')) :
    hd'.magic = hd.magic ∧ hd'.spec = hd.spec ∧ hd'.algo = hd.algo ∧
    hd'.gcry_ctx = hd.gcry_ctx := by
  unfold mac_write at h
  cases hops : hd.spec.ops with
  | none => rw [hops] at h; simp at h
  | some o =>
    simp only [hops] at h
    cases hsk : o.write with
    | none =>
      simp only [hsk] at h
      obtain ⟨-, h2⟩ : ErrCode.invArg = e ∧ hd = hd' := by
        simpa using h
      rw [← h2]
      exact ⟨rfl, rfl, rfl, rfl⟩
    | some f =>
      simp only [hsk] at h
      by_cases hc : (inlen > 0 ∧ inbuf = none)
      · rw [if_pos hc] at h
        obtain ⟨-, h2⟩ : ErrCode.invArg = e ∧ hd = hd' := by
          simpa using h
        rw [← h2]
        exact ⟨rfl, rfl, rfl, rfl⟩
      · rw [if_neg hc] at h
        obtain ⟨-, h2⟩ :
            (f hd.ctx inbuf inlen).1 = e ∧
              { hd with ctx := (f hd.ctx inbuf inlen).2 } = hd' := by
          simpa using h
        rw [← h2]
        exact ⟨rfl, rfl, rfl, rfl⟩

/-- `mac_read` never touches the handle's magic tag, descriptor binding,
algorithm id or external context. -/
theorem mac_read_frame {κ : Type} {hd : MacHd κ} {outbuf : Option (List Nat)}
    {outlen : Option Nat} {e : ErrCode} {hd' : MacHd κ} {outlen' : Option Nat}
    (h : mac_read hd outbuf outlen = some (e, hd', outlen')) :
    hd'.magic = hd.magic ∧ hd'.spec = hd.spec ∧ hd'.algo = hd.algo ∧
    hd'.gcry_ctx = hd.gcry_ctx := by
  unfold mac_read at h
  by_cases hg : (outbuf.isNone = true ∨ outlen.isNone = true ∨
      outlen = some 0)
  · rw [if_pos hg] at h
    obtain ⟨-, h2, -⟩ : ErrCode.invArg = e ∧ hd = hd' ∧ outlen = outlen' := by
      simpa using h
    rw [← h2]
    exact ⟨rfl, rfl, rfl, rfl⟩
  · rw [if_neg hg] at h
    cases hops : hd.spec.ops with
    | none => rw [hops] at h; simp at h
    | some o =>
      simp only [hops] at h
      cases hrd : o.read with
      | none =>
        simp only [hrd] at h
        obtain ⟨-, h2, -⟩ :
            ErrCode.invArg = e ∧ hd = hd' ∧ outlen = outlen' := by
          simpa using h
        rw [← h2]
        exact ⟨rfl, rfl, rfl, rfl⟩
      | some f =>
        simp only [hrd] at h
        cases houtlen : outlen with
        | none => rw [houtlen] at h; simp at h
        | some n =>
          simp only [houtlen] at h
          obtain ⟨-, h2, -⟩ :
              (f hd.ctx n).1 = e ∧
                { hd with ctx := (f hd.ctx n).2.1 } = hd' ∧
                some (f hd.ctx n).2.2 = outlen' := by
            simpa using h
          rw [← h2]
          exact ⟨rfl, rfl, rfl, rfl⟩

/-- `mac_verify` never touches the handle's magic tag, descriptor binding,
algorithm id or external context. -/
theorem mac_verify_frame {κ : Type} {hd : MacHd κ} {buf : Option (List Nat)}
    {buflen : Nat} {e : ErrCode} {hd' : MacHd κ}
    (h : mac_verify hd buf buflen = some (e, hd')) :
    hd'.magic = hd.magic ∧ hd'.spec = hd.spec ∧ hd'.algo = hd.algo ∧
    hd'.gcry_ctx = hd.gcry_ctx := by
  unfold mac_verify at h
  by_cases hg : (buf.isNone = true ∨ buflen = 0)
  · rw [if_pos hg] at h
    obtain ⟨-, h2⟩ : ErrCode.invArg = e ∧ hd = hd' := by
      simpa using h
    rw [← h2]
    exact ⟨rfl, rfl, rfl, rfl⟩
  · rw [if_neg hg] at h
    cases hops : hd.spec.ops with
    | none => rw [hops] at h; simp at h
    | some o =>
      simp only [hops] at h
      cases hv : o.verify with
      | none =>
        simp only [hv] at h
        obtain ⟨-, h2⟩ : ErrCode.invArg = e ∧ hd = hd' := by
          simpa using h
        rw [← h2]
        exact ⟨rfl, rfl, rfl, rfl⟩
      | some f =>
        simp only [hv] at h
        obtain ⟨-, h2⟩ :
            (f hd.ctx buf buflen).1 = e ∧
              { hd with ctx := (f hd.ctx buf buflen).2 } = hd' := by
          simpa using h
        rw [← h2]
        exact ⟨rfl, rfl, rfl, rfl⟩

/-- `mac_reset` never touches the handle's magic tag, descriptor binding,
algorithm id or external context. -/
theorem mac_reset_frame {κ : Type} {hd : MacHd κ} {e : ErrCode}
    {hd' : MacHd κ} (h : mac_reset hd = some (e, hd')) :
    hd'.magic = hd.magic ∧ hd'.spec = hd.spec ∧ hd'.algo = hd.algo ∧
    hd'.gcry_ctx = hd.gcry_ctx := by
  unfold mac_reset at h
  cases hops : hd.spec.ops with
  | none => rw [hops] at h; simp at h
  | some o =>
    simp only [hops] at h
    cases hrs : o.reset with
    | none =>
      simp only [hrs] at h
      obtain ⟨-, h2⟩ : ErrCode.noError = e ∧ hd = hd' := by
        simpa using h
      rw [← h2]
      exact ⟨rfl, rfl, rfl, rfl⟩
    | some f =>
      simp only [hrs] at h
      obtain ⟨-, h2⟩ :
          (f hd.ctx).1 = e ∧ { hd with ctx := (f hd.ctx).2 } = hd' := by
        simpa using h
      rw [← h2]
      exact ⟨rfl, rfl, rfl, rfl⟩

/-- **C9**: a successful open performs exactly one zero-initialized
allocation, from the secure pool iff the SECURE flag was given, and stamps
the handle's magic tag with the sentinel matching the pool
(`CTX_MAGIC_SECURE` iff secure); the context starts from the zeroed state
handed to the algorithm's `open` callback, and the secure/normal binding
(magic tag and descriptor) is preserved by every dispatch operation for the
handle's lifetime. -/
theorem C9_secure_pool_binding {κ : Type} (macList : List (MacSpec κ))
    (algo : Int) (secure : Bool) (gctx : Option Nat) (allocOk : Bool)
    (zero : κ) (hd : MacHd κ)
    (hhd : (mac_open macList algo secure gctx allocOk zero).hd = some hd) :
    (mac_open macList algo secure gctx allocOk zero).allocs = [secure] ∧
    hd.magic = (if secure then CTX_MAGIC_SECURE else CTX_MAGIC_NORMAL) ∧
    (hd.magic = CTX_MAGIC_SECURE ↔ secure = true) ∧
    (hd.magic = CTX_MAGIC_NORMAL ↔ secure = false) ∧
    (∃ o fopen, hd.spec.ops = some o ∧ o.op_open = some fopen ∧
      hd.ctx = (fopen zero).2) ∧
    (∀ key keylen e hd', mac_setkey hd key keylen = some (e, hd') →
      hd'.magic = hd.magic ∧ hd'.spec = hd.spec) ∧
    (∀ iv ivlen e hd', mac_setiv hd iv ivlen = some (e, hd') →
      hd'.magic = hd.magic ∧ hd'.spec = hd.spec) ∧
    (∀ inbuf inlen e hd', mac_write hd inbuf inlen = some (e, hd') →
      hd'.magic = hd.magic ∧ hd'.spec = hd.spec) ∧
    (∀ outbuf outlen e hd' outlen',
      mac_read hd outbuf outlen = some (e, hd', outlen') →
      hd'.magic = hd.magic ∧ hd'.spec = hd.spec) ∧
    (∀ buf buflen e hd', mac_verify hd buf buflen = some (e, hd') →
      hd'.magic = hd.magic ∧ hd'.spec = hd.spec) ∧
    (∀ e hd', mac_reset hd = some (e, hd') →
      hd'.magic = hd.magic ∧ hd'.spec = hd.spec) := by
  obtain ⟨s, o, fopen, hs, hdis, hops, hopen, hw, hsk, hrd, hv, hrs,
    halloc, herr, hhd', heq⟩ := mac_open_success_inv hhd
  refine ⟨?_, ?_, ?_, ?_, ?_, ?_, ?_, ?_, ?_, ?_, ?_⟩
  · rw [heq]
  · rw [hhd']
  · rw [hhd']
    cases secure with
    | true => simp [CTX_MAGIC_SECURE]
    | false => simp [CTX_MAGIC_SECURE, CTX_MAGIC_NORMAL]
  · rw [hhd']
    cases secure with
    | true => simp [CTX_MAGIC_SECURE, CTX_MAGIC_NORMAL]
    | false => simp [CTX_MAGIC_NORMAL]
  · exact ⟨o, fopen, by rw [hhd']; exact hops, hopen, by rw [hhd']⟩
  · intro key keylen e hd' h
    exact ⟨(mac_setkey_frame h).1, (mac_setkey_frame h).2.1⟩
  · intro iv ivlen e hd' h
    exact ⟨(mac_setiv_frame h).1, (mac_setiv_frame h).2.1⟩
  · intro inbuf inlen e hd' h
    exact ⟨(mac_write_frame h).1, (mac_write_frame h).2.1⟩
  · intro outbuf outlen e hd' outlen' h
    exact ⟨(mac_read_frame h).1, (mac_read_frame h).2.1⟩
  · intro buf buflen e hd' h
    exact ⟨(mac_verify_frame h).1, (mac_verify_frame h).2.1⟩
  · intro e hd' h
    exact ⟨(mac_reset_frame h).1, (mac_reset_frame h).2.1⟩

/-- **C9 witness**: opening the fully-capable descriptor with the secure
flag yields one secure-pool allocation and the secure sentinel, and the tag
survives a setkey. -/
theorem C9_secure_pool_binding_witness :
    (mac_open macListModel 101 true none true 0).allocs = [true] ∧
    (⟨CTX_MAGIC_SECURE, specA, 101, none, 0⟩ : MacHd Nat).magic =
      CTX_MAGIC_SECURE := by
  have h := C9_secure_pool_binding macListModel 101 true none true 0
    ⟨CTX_MAGIC_SECURE, specA, 101, none, 0⟩ rfl
  exact ⟨h.1, h.2.2.1.mpr rfl⟩

/-- **C10** (implicit): every handle stored by a successful `mac_open` is
bound to a capability table with all six mandatory operations present, so on
such handles the missing-capability branches of setkey/write/read/verify are
unreachable (for arguments passing the generic pointer checks the call is
always forwarded to the capability), and `mac_reset`'s absent-capability
fallback never triggers: `GCRYCTL_RESET` through `gcry_mac_ctl` always
invokes the algorithm's reset callback. -/
theorem C10_mandatory_ops_invariant {κ : Type} (macList : List (MacSpec κ))
    (algo : Int) (secure : Bool) (gctx : Option Nat) (allocOk : Bool)
    (zero : κ) (hd : MacHd κ)
    (hhd : (mac_open macList algo secure gctx allocOk zero).hd = some hd) :
    ∃ o, hd.spec.ops = some o ∧
      o.op_open.isSome = true ∧ o.write.isSome = true ∧
      o.setkey.isSome = true ∧ o.read.isSome = true ∧
      o.verify.isSome = true ∧ o.reset.isSome = true ∧
      (∀ key keylen, keylen = 0 ∨ key ≠ none → ∃ f, o.setkey = some f ∧
        mac_setkey hd key keylen = some ((f hd.ctx key keylen).1,
          { hd with ctx := (f hd.ctx key keylen).2 })) ∧
      (∀ inbuf inlen, inlen = 0 ∨ inbuf ≠ none → ∃ f, o.write = some f ∧
        mac_write hd inbuf inlen = some ((f hd.ctx inbuf inlen).1,
          { hd with ctx := (f hd.ctx inbuf inlen).2 })) ∧
      (∀ outbuf n, outbuf ≠ none → n ≠ 0 → ∃ f, o.read = some f ∧
        mac_read hd outbuf (some n) = some ((f hd.ctx n).1,
          { hd with ctx := (f hd.ctx n).2.1 }, some (f hd.ctx n).2.2)) ∧
      (∀ buf buflen, buf ≠ none → buflen ≠ 0 → ∃ f, o.verify = some f ∧
        mac_verify hd buf buflen = some ((f hd.ctx buf buflen).1,
          { hd with ctx := (f hd.ctx buf buflen).2 })) ∧
      (∃ f, o.reset = some f ∧
        mac_reset hd = some ((f hd.ctx).1, { hd with ctx := (f hd.ctx).2 }) ∧
        ∀ buffer buflen,
          gcry_mac_ctl hd GcryCtl.GCRYCTL_RESET buffer buflen =
            mac_reset hd) := by
  obtain ⟨s, o, fopen, hs, hdis, hops, hopen, hw, hsk, hrd, hv, hrs,
    halloc, herr, hhd', heq⟩ := mac_open_success_inv hhd
  have hspecops : hd.spec.ops = some o := by rw [hhd']; exact hops
  refine ⟨o, hspecops, by rw [hopen]; rfl, hw, hsk, hrd, hv, hrs,
    ?_, ?_, ?_, ?_, ?_⟩
  · intro key keylen hvalid
    obtain ⟨f, hf⟩ := Option.isSome_iff_exists.mp hsk
    refine ⟨f, hf, ?_⟩
    unfold mac_setkey
    simp only [hspecops, hf]
    rw [if_neg ?_]
    rcases hvalid with h0 | hkey
    · intro hc
      rw [h0] at hc
      exact absurd hc.1 (by decide)
    · intro hc
      exact hkey hc.2
  · intro inbuf inlen hvalid
    obtain ⟨f, hf⟩ := Option.isSome_iff_exists.mp hw
    refine ⟨f, hf, ?_⟩
    unfold mac_write
    simp only [hspecops, hf]
    rw [if_neg ?_]
    rcases hvalid with h0 | hbuf
    · intro hc
      rw [h0] at hc
      exact absurd hc.1 (by decide)
    · intro hc
      exact hbuf hc.2
  · intro outbuf n hbuf hn
    obtain ⟨f, hf⟩ := Option.isSome_iff_exists.mp hrd
    refine ⟨f, hf, ?_⟩
    unfold mac_read
    rw [if_neg ?_]
    · simp only [hspecops, hf]
    · intro hc
      rcases hc with hc | hc | hc
      · exact hbuf (Option.isNone_iff_eq_none.mp hc)
      · simp at hc
      · exact hn (by injection hc)
  · intro buf buflen hbuf hlen
    obtain ⟨f, hf⟩ := Option.isSome_iff_exists.mp hv
    refine ⟨f, hf, ?_⟩
    unfold mac_verify
    rw [if_neg ?_]
    · simp only [hspecops, hf]
    · intro hc
      rcases hc with hc | hc
      · exact hbuf (Option.isNone_iff_eq_none.mp hc)
      · exact hlen hc
  · obtain ⟨f, hf⟩ := Option.isSome_iff_exists.mp hrs
    refine ⟨f, hf, ?_, ?_⟩
    · unfold mac_reset
      simp only [hspecops, hf]
    · intro buffer buflen
      rfl

/-- **C10 witness**: on the handle opened over the fully-capable
descriptor, setkey is forwarded to the algorithm and `GCRYCTL_RESET`
invokes the algorithm's reset callback (which here rewinds the schematic
context to 0) rather than the silent-success fallback. -/
theorem C10_mandatory_ops_invariant_witness :
    mac_setkey hdA (some [9]) 1 =
      some (ErrCode.noError, { hdA with ctx := 1 }) ∧
    mac_reset { hdA with ctx := 1 } = some (ErrCode.noError, hdA) ∧
    gcry_mac_ctl { hdA with ctx := 1 } GcryCtl.GCRYCTL_RESET none 0 =
      mac_reset { hdA with ctx := 1 } := by
  obtain ⟨o, hop, -, -, -, -, -, -, hsetkey, -, -, -, -⟩ :=
    C10_mandatory_ops_invariant macListModel 101 false none true 0 hdA rfl
  obtain rfl : o = opsFull :=
    (Option.some.inj
      (hop : (some opsFull : Option (MacOps Nat)) = some o)).symm
  obtain ⟨f, hf, hfwd⟩ := hsetkey (some [9]) 1 (Or.inr (by simp))
  obtain rfl : f = (fun c _ l => (ErrCode.noError, c + l)) :=
    (Option.some.inj
      (hf : (some (fun c _ l => (ErrCode.noError, c + l)) :
        Option (Nat → Option (List Nat) → Nat → ErrCode × Nat)) =
          some f)).symm
  obtain ⟨o', hop', -, -, -, -, -, -, -, -, -, -, hreset⟩ :=
    C10_mandatory_ops_invariant macListModel 101 false none true 1
      { hdA with ctx := 1 } rfl
  obtain rfl : o' = opsFull :=
    (Option.some.inj
      (hop' : (some opsFull : Option (MacOps Nat)) = some o')).symm
  obtain ⟨g, hg, hrun, hctl⟩ := hreset
  obtain rfl : g = (fun _ => (ErrCode.noError, 0)) :=
    (Option.some.inj
      (hg : (some (fun _ => (ErrCode.noError, 0)) :
        Option (Nat → ErrCode × Nat)) = some g)).symm
  exact ⟨hfwd, hrun, hctl none 0⟩

/-- **C3**: `gcry_mac_open`'s error contract — a flag bit other than SECURE
yields `GPG_ERR_INV_ARG` with no allocation performed; an unregistered id, a
disabled descriptor, a NULL capability table or a missing mandatory
operation yields `GPG_ERR_MAC_ALGO` (UnknownAlgorithm) with no allocation;
when the algorithm's `open` callback fails, the one freshly allocated
handle is released (`frees = 1`) and the callback's error is propagated;
and in every error case the output handle slot is NULL. -/
theorem C3_open_error_contract {κ : Type} (macList : List (MacSpec κ))
    (gctx : Option Nat) (zero : κ) :
    (∀ algo flags allocOk,
      (flags &&& UINT32_MASK) &&& (UINT32_MASK ^^^ GCRY_MAC_FLAG_SECURE) ≠ 0 →
      gcry_mac_open macList algo flags gctx allocOk zero =
        ⟨ErrCode.invArg, none, [], 0⟩) ∧
    (∀ algo secure allocOk, spec_from_algo macList algo = none →
      mac_open macList algo secure gctx allocOk zero =
        ⟨ErrCode.macAlgo, none, [], 0⟩) ∧
    (∀ algo secure allocOk s, spec_from_algo macList algo = some s →
      s.disabled = true →
      mac_open macList algo secure gctx allocOk zero =
        ⟨ErrCode.macAlgo, none, [], 0⟩) ∧
    (∀ algo secure allocOk s, spec_from_algo macList algo = some s →
      s.ops = none →
      mac_open macList algo secure gctx allocOk zero =
        ⟨ErrCode.macAlgo, none, [], 0⟩) ∧
    (∀ algo secure allocOk s o, spec_from_algo macList algo = some s →
      s.ops = some o →
      (o.op_open = none ∨ o.write = none ∨ o.setkey = none ∨
        o.read = none ∨ o.verify = none ∨ o.reset = none) →
      mac_open macList algo secure gctx allocOk zero =
        ⟨ErrCode.macAlgo, none, [], 0⟩) ∧
    (∀ algo secure s o fopen, spec_from_algo macList algo = some s →
      s.disabled = false → s.ops = some o → o.op_open = some fopen →
      o.write.isSome = true → o.setkey.isSome = true →
      o.read.isSome = true → o.verify.isSome = true →
      o.reset.isSome = true → (fopen zero).1 ≠ ErrCode.noError →
      mac_open macList algo secure gctx true zero =
        ⟨(fopen zero).1, none, [secure], 1⟩) ∧
    (∀ algo flags allocOk,
      (gcry_mac_open macList algo flags gctx allocOk zero).err ≠
        ErrCode.noError →
      (gcry_mac_open macList algo flags gctx allocOk zero).hd = none) := by
  refine ⟨?_, ?_, ?_, ?_, ?_, ?_, ?_⟩
  · intro algo flags allocOk hflag
    unfold gcry_mac_open
    rw [if_pos hflag]
  · intro algo secure allocOk hs
    unfold mac_open
    rw [hs]
  · intro algo secure allocOk s hs hdis
    unfold mac_open
    rw [hs]
    simp [hdis]
  · intro algo secure allocOk s hs hops
    cases hdis : s.disabled with
    | true =>
      unfold mac_open
      rw [hs]
      simp [hdis]
    | false =>
      unfold mac_open
      rw [hs]
      simp [hdis, hops]
  · intro algo secure allocOk s o hs hops hmiss
    cases hdis : s.disabled with
    | true =>
      unfold mac_open
      rw [hs]
      simp [hdis]
    | false =>
      unfold mac_open
      rw [hs]
      simp only [hdis, Bool.false_eq_true, if_false, hops]
      rcases hmiss with h | h | h | h | h | h
      · rw [h]
      · cases hopen : o.op_open <;> simp [h]
      · cases hopen : o.op_open <;> simp [h]
      · cases hopen : o.op_open <;> simp [h]
      · cases hopen : o.op_open <;> simp [h]
      · cases hopen : o.op_open <;> simp [h]
  · intro algo secure s o fopen hs hdis hops hopen hw hsk hrd hv hrs hferr
    have hcond : ¬(o.write.isNone = true ∨ o.setkey.isNone = true ∨
        o.read.isNone = true ∨ o.verify.isNone = true ∨
        o.reset.isNone = true) := by
      intro hc
      rcases hc with h | h | h | h | h
      · rw [Option.isNone_iff_eq_none.mp h] at hw
        simp at hw
      · rw [Option.isNone_iff_eq_none.mp h] at hsk
        simp at hsk
      · rw [Option.isNone_iff_eq_none.mp h] at hrd
        simp at hrd
      · rw [Option.isNone_iff_eq_none.mp h] at hv
        simp at hv
      · rw [Option.isNone_iff_eq_none.mp h] at hrs
        simp at hrs
    unfold mac_open
    rw [hs]
    simp only [hdis, Bool.false_eq_true, if_false, hops, hopen]
    rw [if_neg hcond]
    simp [hferr]
  · intro algo flags allocOk herr
    unfold gcry_mac_open at herr ⊢
    by_cases hflag :
      (flags &&& UINT32_MASK) &&& (UINT32_MASK ^^^ GCRY_MAC_FLAG_SECURE) ≠ 0
    · rw [if_pos hflag]
    · rw [if_neg hflag] at herr ⊢
      generalize hM : mac_open macList algo
        (decide ((flags &&& GCRY_MAC_FLAG_SECURE) ≠ 0)) gctx allocOk zero =
          M at herr ⊢
      by_cases hok : M.err = ErrCode.noError
      · exact absurd hok herr
      · show (if M.err = ErrCode.noError then M.hd else none) = none
        rw [if_neg hok]

/-- **C3 witness**: a foreign flag bit (4) is rejected with no allocation;
the disabled id 106 and the unknown id 999 yield `GPG_ERR_MAC_ALGO`; the
descriptor whose `open` callback fails has its freshly allocated handle
released and the callback's error propagated. -/
theorem C3_open_error_contract_witness :
    gcry_mac_open macListModel 101 4 none true 0 =
      ⟨ErrCode.invArg, none, [], 0⟩ ∧
    mac_open macListModel 999 false none true 0 =
      ⟨ErrCode.macAlgo, none, [], 0⟩ ∧
    mac_open macListModel 106 false none true 0 =
      ⟨ErrCode.macAlgo, none, [], 0⟩ ∧
    mac_open macListModel 108 false none true 0 =
      ⟨ErrCode.other 7, none, [false], 1⟩ := by
  have h := C3_open_error_contract macListModel (none : Option Nat) (0 : Nat)
  refine ⟨h.1 101 4 true (by decide), h.2.1 999 false true rfl,
    h.2.2.1 106 false true specDisabled rfl rfl, ?_⟩
  exact h.2.2.2.2.2.1 108 false specFailOpen opsFailOpen
    (fun c => (ErrCode.other 7, c)) rfl rfl rfl rfl rfl rfl rfl rfl rfl
    (by decide)
